import Mathlib

/-!
Shallow embedding of the scheduler repository (scheduler-core/src/lib.rs and
scheduler-server/src/main.rs).

Modelling conventions:
- u64 values are Nat; the id counter is an AtomicU64, so fetch_add wraps
  modulo 2^64 and the recovery seeding uses saturating_add, both modelled
  explicitly.
- The DashMap task table and watcher multimap are association lists with
  map semantics (lookup finds the first matching key; insert replaces).
- chrono DateTime values are modelled at two granularities: an opaque Int
  for the Once payload and RunResult.finished_at, and a LocalDT record
  (day, hour, minute, second, nano) for the next_daily_at computation.
- External command execution is an oracle: Option CmdOutput, where none
  means the spawn itself failed (Command::output returned Err).
- The persisted file is modelled as the parsed list of (id, spec) records;
  serde serialization is treated as the identity on that list.
- A failed persistence write is modelled by a persistOk flag: the write is
  skipped and the operation returns an error, as std::fs::write failing.
-/

/-- Schedule from scheduler-core/src/lib.rs. -/
inductive Schedule where
  | once (t : Int)
  | daily (hour minute : Nat)
  | after (task_id delay_secs : Nat)
deriving DecidableEq

/-- TaskSpec from scheduler-core/src/lib.rs. -/
structure TaskSpec where
  cmd : String
  args : List String
  output_path : String
  append : Bool
  schedule : Schedule
deriving DecidableEq

/-- RunResult from scheduler-core/src/lib.rs. -/
structure RunResult where
  finished_at : Int
  status_code : Int
  stdout_len : Nat
  stderr_len : Nat
  wrote_to : String
deriving DecidableEq

/-- TaskEntry from scheduler-server/src/main.rs: the CancellationToken is
modelled by its presence flag (hasCancel). -/
structure TaskEntry where
  spec : TaskSpec
  hasCancel : Bool
  last_result : Option RunResult
deriving DecidableEq

/-- ClientRequest from scheduler-core/src/lib.rs. -/
inductive ClientRequest where
  | addTask (spec : TaskSpec)
  | removeTask (id : Nat)
  | listTasks
deriving DecidableEq

/-- ServerResponse from scheduler-core/src/lib.rs. -/
inductive ServerResponse where
  | added (id : Nat)
  | removed (ok : Bool)
  | tasks (l : List (Nat × TaskSpec × Option RunResult))
  | error (msg : String)
deriving DecidableEq

/-- Server State from scheduler-server/src/main.rs; the field file is the
content of the persisted data_path, as parsed records. -/
structure State where
  tasks : List (Nat × TaskEntry)
  watchers : List (Nat × List Nat)
  next_id : Nat
  file : List (Nat × TaskSpec)
deriving DecidableEq

def U64 : Nat := 2 ^ 64

/-- Association list lookup with map semantics (DashMap get). -/
def lookupA {α : Type} : List (Nat × α) → Nat → Option α
  | [], _ => none
  | (k2, v) :: rest, k => if k2 = k then some v else lookupA rest k

/-- Remove every binding of a key (DashMap remove). -/
def eraseKey {α : Type} (l : List (Nat × α)) (k : Nat) : List (Nat × α) :=
  l.filter (fun p => p.1 ≠ k)

/-- Insert or replace a binding (DashMap insert). -/
def insertA {α : Type} (l : List (Nat × α)) (k : Nat) (v : α) : List (Nat × α) :=
  (k, v) :: eraseKey l k

/-- watchers.entry(k).or_default().push(v) from main.rs. -/
def pushWatcher : List (Nat × List Nat) → Nat → Nat → List (Nat × List Nat)
  | [], k, v => [(k, [v])]
  | (k2, l) :: rest, k, v =>
      if k2 = k then (k2, l ++ [v]) :: rest else (k2, l) :: pushWatcher rest k v

/-- The TaskEntry built by add_task and load_persisted: Once and Daily get a
cancellation token (a spawned scheduler loop), After does not; last_result
starts empty. -/
def mkEntry (spec : TaskSpec) : TaskEntry :=
  { spec := spec
    hasCancel := match spec.schedule with
      | .after _ _ => false
      | _ => true
    last_result := none }

/-- The records persist writes: the (id, spec) pair of every task in the
store (main.rs, persist). -/
def persistRecs (st : State) : List (Nat × TaskSpec) :=
  st.tasks.map (fun ke => (ke.1, ke.2.spec))

/-- persist from main.rs: serialize all (id, spec) pairs and overwrite the
data file wholesale. -/
def persist (st : State) : State :=
  { st with file := persistRecs st }

/-- add_task from main.rs: allocate the next id (AtomicU64 fetch_add, which
wraps modulo 2^64), register the dependency for After schedules, insert the
entry, then persist.  A failed persistence write (persistOk = false) leaves
the in-memory insertion in place and returns an error. -/
def add_task (persistOk : Bool) (spec : TaskSpec) (st : State) :
    State × Except Unit Nat :=
  let id := st.next_id
  let watchers2 := match spec.schedule with
    | .after tid _ => pushWatcher st.watchers tid id
    | _ => st.watchers
  let st2 : State :=
    { st with
      tasks := insertA st.tasks id (mkEntry spec)
      watchers := watchers2
      next_id := (st.next_id + 1) % U64 }
  if persistOk then (persist st2, Except.ok id) else (st2, Except.error ())

/-- remove_task from main.rs: if present, remove the entry, cancel its
token, prune the removed id from every dependent list (the keys of the
watcher map are kept), then persist; otherwise report false and change
nothing. -/
def remove_task (persistOk : Bool) (id : Nat) (st : State) :
    State × Except Unit Bool :=
  match lookupA st.tasks id with
  | none => (st, Except.ok false)
  | some _ =>
      let st2 : State :=
        { st with
          tasks := eraseKey st.tasks id
          watchers := st.watchers.map (fun kv => (kv.1, kv.2.filter (fun x => x ≠ id))) }
      if persistOk then (persist st2, Except.ok true) else (st2, Except.error ())

/-- The maximum id of the recovered records, as the running fold in
load_persisted (max_id starts at 0). -/
def maxIdOf (recs : List (Nat × TaskSpec)) : Nat :=
  recs.foldl (fun m r => max m r.1) 0

/-- The per-record loop body of load_persisted: insert a rehydrated entry
(no last_result) and register After dependencies. -/
def load_core : List (Nat × TaskSpec) → State → State
  | [], st => st
  | r :: rest, st =>
      let st2 : State :=
        { st with
          tasks := insertA st.tasks r.1 (mkEntry r.2)
          watchers := match r.2.schedule with
            | .after tid _ => pushWatcher st.watchers tid r.1
            | _ => st.watchers }
      load_core rest st2

/-- load_persisted from main.rs: rehydrate every record, then seed the id
counter with max_id.saturating_add(1), i.e. min (max + 1) (2^64 - 1). -/
def load_persisted (recs : List (Nat × TaskSpec)) (st : State) : State :=
  let st2 := load_core recs st
  { st2 with next_id := min (maxIdOf recs + 1) (U64 - 1) }

/-- The fresh state main builds before loading: empty maps, counter 1. -/
def initState : State := ⟨[], [], 1, []⟩

/-- Startup sequence of main (main.rs lines 49-64): build the fresh state;
if the data file exists, try to load it, and on error only log and fall
through; in every case proceed to bind the listener.  The Bool result is
whether the Control Endpoint begins accepting connections.  The argument is
the disk content: none if the file does not exist, some (.error m) if it
exists but cannot be parsed, some (.ok recs) otherwise. -/
def startup (disk : Option (Except String (List (Nat × TaskSpec)))) :
    State × Bool :=
  match disk with
  | none => (initState, true)
  | some (Except.ok recs) => (load_persisted recs initState, true)
  | some (Except.error _) => (initState, true)

/-- One request of handle_conn from main.rs.  The response is none when the
handler aborts with an error before framed.send, which closes the
connection without a reply: this happens exactly when a persistence write
fails, because add_task and remove_task propagate that error. -/
def handle_request (persistOk : Bool) (req : ClientRequest) (st : State) :
    State × Option ServerResponse :=
  match req with
  | .addTask spec =>
      let r := add_task persistOk spec st
      (r.1, match r.2 with
        | Except.ok id => some (ServerResponse.added id)
        | Except.error _ => none)
  | .removeTask id =>
      let r := remove_task persistOk id st
      (r.1, match r.2 with
        | Except.ok ok => some (ServerResponse.removed ok)
        | Except.error _ => none)
  | .listTasks =>
      (st, some (ServerResponse.tasks
        (st.tasks.map (fun ke => (ke.1, ke.2.spec, ke.2.last_result)))))

/-- The captured result of the external command (Command::output): exit
code (none when terminated without a code), full stdout and stderr bytes,
modelled as character lists. -/
structure CmdOutput where
  code : Option Int
  stdout : List Char
  stderr : List Char
deriving DecidableEq

/-- output.status.code().unwrap_or(-1) from execute_once. -/
def status_of (o : CmdOutput) : Int := o.code.getD (-1)

def nlC : List Char := ("\n").data

/-- The writeln before the stderr bytes: a leading blank line plus the
separator line (main.rs line 227). -/
def sepC : List Char := ("\n--- stderr ---" ++ "\n").data

/-- The header line written by execute_once (main.rs line 221), with its
trailing newline; ts stands for the rendered completion timestamp. -/
def header_line (ts : String) (id : Nat) (status : Int) : List Char :=
  ("=== [" ++ ts ++ "] task " ++ toString id ++ " exit " ++ toString status
    ++ " ===" ++ "\n").data

/-- The sequence of write calls execute_once performs on the open file, in
source order: header; stdout bytes if non-empty, plus an extra newline when
not appending; if stderr is non-empty, a blank line and separator, the
stderr bytes, and a newline. -/
def write_list (ts : String) (id : Nat) (status : Int) (append : Bool)
    (o : CmdOutput) : List (List Char) :=
  [header_line ts id status]
    ++ (if o.stdout.isEmpty then [] else
          [o.stdout] ++ (if append then [] else [nlC]))
    ++ (if o.stderr.isEmpty then [] else [sepC, o.stderr, nlC])

/-- A file opened by OpenOptions::new().create(true).write(true)
.append(app): in append mode every write goes to the end; otherwise the
cursor starts at 0 and writes overwrite in place, without truncation,
because the source never sets truncate(true). -/
structure OpenFile where
  content : List Char
  pos : Nat
  app : Bool
deriving DecidableEq

def openOutput (prior : Option (List Char)) (app : Bool) : OpenFile :=
  ⟨prior.getD [], 0, app⟩

def fwrite (f : OpenFile) (s : List Char) : OpenFile :=
  if f.app then ⟨f.content ++ s, f.content.length + s.length, true⟩
  else ⟨f.content.take f.pos ++ s ++ f.content.drop (f.pos + s.length),
        f.pos + s.length, false⟩

def writeAll (f : OpenFile) (ws : List (List Char)) : OpenFile :=
  ws.foldl fwrite f

/-- Step 3 of execute_once: update last_result only if the task id is still
present in the store; a removed task gets nothing recorded. -/
def record_result (now : Int) (id : Nat) (spec : TaskSpec) (o : CmdOutput)
    (st : State) : State :=
  match lookupA st.tasks id with
  | none => st
  | some ent =>
      let res : RunResult :=
        { finished_at := now
          status_code := status_of o
          stdout_len := o.stdout.length
          stderr_len := o.stderr.length
          wrote_to := spec.output_path }
      let ent2 : TaskEntry := { ent with last_result := some res }
      { st with tasks := insertA st.tasks id ent2 }

/-- Steps 2 and 3 of execute_once, after the command has finished: write
the output file (parent-directory creation has no observable effect in
this model), then record the result.  Returns the new state and the new
content of the output file. -/
def execute_finish (now : Int) (ts : String) (o : CmdOutput) (id : Nat)
    (spec : TaskSpec) (st : State) (file : Option (List Char)) :
    State × List Char :=
  let content := (writeAll (openOutput file spec.append)
    (write_list ts id (status_of o) spec.append o)).content
  (record_result now id spec o st, content)

/-- execute_once from main.rs: if the spawn fails (out = none) return an
error with no side effect at all; otherwise finish the run. -/
def execute_once (now : Int) (ts : String) (out : Option CmdOutput)
    (id : Nat) (spec : TaskSpec) (st : State) (file : Option (List Char)) :
    State × Option (List Char) × Except Unit Unit :=
  match out with
  | none => (st, file, Except.error ())
  | some o =>
      let r := execute_finish now ts o id spec st file
      (r.1, some r.2, Except.ok ())

/-- The direct dependents of a task, read from the watcher map exactly as
the two copies of this loop in run_once_and_record do: each dependent id is
kept only if it is still in the task store, its schedule is After, and its
trigger field equals the finished task. -/
def direct_dependents (st : State) (id : Nat) : List (Nat × TaskSpec × Nat) :=
  match lookupA st.watchers id with
  | none => []
  | some deps => deps.filterMap (fun dep =>
      match lookupA st.tasks dep with
      | none => none
      | some ent =>
          match ent.spec.schedule with
          | .after tid d => if tid = id then some (dep, ent.spec, d) else none
          | _ => none)

/-- The while-let queue loop of run_once_and_record: dequeue one dependent,
execute it (recording the attempt and whether the spawn succeeded), and
enqueue its own direct dependents regardless of that outcome.  The trace
lists (id, delay, spawn succeeded) in execution order; the fuel bounds the
number of modelled iterations, because a cyclic dependency graph makes the
source loop forever (a documented limitation).  The walk only reads specs
and watcher lists, which executions never modify, so the state is threaded
unchanged. -/
def chain_walk (st : State) (exec : Nat → Option CmdOutput) :
    Nat → List (Nat × TaskSpec × Nat) → List (Nat × Nat × Bool)
  | 0, _ => []
  | _ + 1, [] => []
  | fuel + 1, (i, _s, d) :: rest =>
      (i, d, (exec i).isSome) ::
        chain_walk st exec fuel (rest ++ direct_dependents st i)

/-- run_once_and_record from main.rs: execute the finished task first; if
its spawn fails the question-mark operator aborts before the queue is even
built, so no dependent runs; otherwise walk the chain.  The result is the
trace of dependent executions. -/
def run_once_and_record (exec : Nat → Option CmdOutput) (fuel : Nat)
    (id : Nat) (st : State) : Except Unit (List (Nat × Nat × Bool)) :=
  match exec id with
  | none => Except.error ()
  | some _ => Except.ok (chain_walk st exec fuel (direct_dependents st id))

/-- A local chrono datetime at nanosecond precision: a day number plus a
time of day.  Chronological order is lexicographic. -/
structure LocalDT where
  day : Int
  hour : Nat
  minute : Nat
  second : Nat
  nano : Nat
deriving DecidableEq

def nanoOfDay (t : LocalDT) : Nat :=
  ((t.hour * 60 + t.minute) * 60 + t.second) * 1000000000 + t.nano

/-- The chrono comparison today > now used by next_daily_at, as a strict
order on LocalDT. -/
def dtLt (a b : LocalDT) : Bool :=
  if a.day < b.day then true
  else if b.day < a.day then false
  else decide (nanoOfDay a < nanoOfDay b)

/-- chrono with_hour: none when the hour is out of range. -/
def with_hour (t : LocalDT) (h : Nat) : Option LocalDT :=
  if h ≤ 23 then some { t with hour := h } else none

def with_minute (t : LocalDT) (m : Nat) : Option LocalDT :=
  if m ≤ 59 then some { t with minute := m } else none

def with_second (t : LocalDT) (s : Nat) : Option LocalDT :=
  if s ≤ 59 then some { t with second := s } else none

def addDays (t : LocalDT) (n : Int) : LocalDT := { t with day := t.day + n }

/-- next_daily_at from main.rs: today is now with the hour, minute and
second replaced (with_second(0) zeroes the seconds but the sub-second
nanoseconds of now are kept, since with_nanosecond is never called); the
unwrap panic on an out-of-range hour or minute is modelled as none. -/
def next_daily_at (hour minute : Nat) (now : LocalDT) : Option LocalDT :=
  match ((with_hour now hour).bind (fun t => with_minute t minute)).bind
      (fun t => with_second t 0) with
  | none => none
  | some today => some (if dtLt now today then today else addDays today 1)

/-- Modelled from the claim wording of C8: the next fire time is today at
hour:minute (seconds and nanoseconds zero) when that instant is still in
the future, else tomorrow at hour:minute.  Stated for comparison with
next_daily_at. -/
def next_daily_claim (hour minute : Nat) (now : LocalDT) : LocalDT :=
  let target : LocalDT := ⟨now.day, hour, minute, 0, 0⟩
  if dtLt now target then target else addDays target 1

/-- Rehydration of one persisted record into its task-table binding. -/
def rehydRec (r : Nat × TaskSpec) : Nat × TaskEntry := (r.1, mkEntry r.2)

/-- Modelled from the claim wording of C9: the output file content the
claim describes, with truncation when the append flag is unset, then the
header line, the stdout bytes, and for non-empty stderr a separator and the
stderr bytes.  Stated for comparison with execute_finish. -/
def executor_file_claim (ts : String) (id : Nat) (status : Int)
    (o : CmdOutput) (prior : Option (List Char)) (append : Bool) : List Char :=
  (if append then prior.getD [] else [])
    ++ header_line ts id status ++ o.stdout
    ++ (if o.stderr.isEmpty then [] else sepC ++ o.stderr)

/-- Sample Once task: the echo hi scenario of the spec. -/
def specOnce : TaskSpec := ⟨"echo", ["hi"], "out.txt", false, Schedule.once 0⟩

/-- Sample After task with a given trigger and delay. -/
def specAfter (tid d : Nat) : TaskSpec :=
  ⟨"echo", ["x"], "o.txt", true, Schedule.after tid d⟩

/-- The A, B, C chain scenario: A is Once (id 1), B is After A with zero
delay (id 2), C is After B with zero delay (id 3), built by three adds. -/
def stABC : State :=
  (add_task true (specAfter 2 0)
    ((add_task true (specAfter 1 0)
      ((add_task true specOnce initState).1)).1)).1

/-- The captured output of echo hi: exit code 0, stdout hi plus the
trailing newline of the stream, empty stderr. -/
def outHi : CmdOutput := ⟨some 0, ("hi" ++ "\n").data, []⟩

/-- An execution oracle on which every spawn succeeds with outHi. -/
def execOk : Nat → Option CmdOutput := fun _ => some outHi

/-- A sample rendered timestamp for concrete executor runs. -/
def tsT : String := "T"

/-- A sample prior output-file content longer than anything written in the
echo hi scenario. -/
def priorX : List Char := List.replicate 50 'X'

/-- A sample recorded result, for states that already ran a task. -/
def res0 : RunResult := ⟨0, 0, 3, 0, "out.txt"⟩

/-- A sample store with two tasks, one of which has a last_result. -/
def st1 : State :=
  ⟨[(1, ⟨specOnce, true, some res0⟩), (2, mkEntry (specAfter 1 0))],
   [(1, [2])], 3, []⟩

/-- The state after adding task 1 and then removing it while an execution
of task 1 is in flight. -/
def stRem : State := (remove_task true 1 (add_task true specOnce initState).1).1

/-- A local instant just after local midnight: nanosecond 1 of day 0. -/
def now0 : LocalDT := ⟨0, 0, 0, 0, 1⟩

/-- The persisted record set whose maximum id is the largest u64. -/
def recsMax : List (Nat × TaskSpec) := [(18446744073709551615, specOnce)]

lemma lookupA_nil {α : Type} (k : Nat) : lookupA ([] : List (Nat × α)) k = none := rfl

lemma erase_of_lookup_none {α : Type} (l : List (Nat × α)) (k : Nat)
    (h : lookupA l k = none) : eraseKey l k = l := by
  induction l with
  | nil => rfl
  | cons p rest ih =>
      obtain ⟨k2, v⟩ := p
      by_cases hk : k2 = k
      · simp [lookupA, hk] at h
      · simp only [lookupA, if_neg hk] at h
        have hstep : eraseKey ((k2, v) :: rest) k = (k2, v) :: eraseKey rest k := by
          simp [eraseKey, List.filter_cons, hk]
        rw [hstep, ih h]

lemma lookupA_cons_ne {α : Type} (k2 k : Nat) (v : α) (l : List (Nat × α))
    (h : k2 ≠ k) : lookupA ((k2, v) :: l) k = lookupA l k := by
  simp [lookupA, h]

lemma mem_eraseKey {α : Type} (l : List (Nat × α)) (k : Nat) (p : Nat × α)
    (h : p ∈ eraseKey l k) : p ∈ l := List.mem_of_mem_filter h

lemma load_core_tasks (recs : List (Nat × TaskSpec)) :
    ∀ st : State, (recs.map Prod.fst).Nodup →
    (∀ r ∈ recs, lookupA st.tasks r.1 = none) →
    (load_core recs st).tasks = (recs.map rehydRec).reverse ++ st.tasks := by
  induction recs with
  | nil => intro st _ _; simp [load_core]
  | cons r rest ih =>
      intro st hnd hlk
      simp only [List.map_cons, List.nodup_cons] at hnd
      have hr : lookupA st.tasks r.1 = none := hlk r (List.mem_cons_self r rest)
      have step : (load_core (r :: rest) st).tasks =
          (load_core rest
            { st with
              tasks := (r.1, mkEntry r.2) :: st.tasks
              watchers := match r.2.schedule with
                | .after tid _ => pushWatcher st.watchers tid r.1
                | _ => st.watchers }).tasks := by
        simp [load_core, insertA, erase_of_lookup_none _ _ hr]
      rw [step, ih _ hnd.2]
      · simp [rehydRec]
      · intro r2 hr2
        have hne : r.1 ≠ r2.1 := by
          intro hcontra
          exact hnd.1 (hcontra ▸ List.mem_map_of_mem Prod.fst hr2)
        simp only []
        rw [lookupA_cons_ne _ _ _ _ hne]
        exact hlk r2 (List.mem_cons_of_mem r hr2)

/-- C1: persist-then-reload round-trip.  Serializing the full set of
(id, spec) pairs with persist and loading that file at startup rebuilds a
store whose (id, spec) pairs are exactly the original ones (as a list they
come back in reversed order, hence as the same set), and every rehydrated
entry has no last_result, even when one was present before the restart.
The hypothesis that the task ids are distinct is the key invariant of the
DashMap task table. -/
theorem C1_persist_reload (st : State)
    (h : (st.tasks.map Prod.fst).Nodup) :
    persistRecs (load_persisted ((persist st).file) initState)
        = (persistRecs st).reverse ∧
    (∀ p : Nat × TaskSpec,
        p ∈ persistRecs (load_persisted ((persist st).file) initState) ↔
          p ∈ persistRecs st) ∧
    (∀ ke ∈ (load_persisted ((persist st).file) initState).tasks,
        ke.2.last_result = none) := by
  have hfile : (persist st).file = persistRecs st := rfl
  have hkeys : ((persistRecs st).map Prod.fst) = st.tasks.map Prod.fst := by
    simp [persistRecs, List.map_map]
  have htasks : (load_persisted ((persist st).file) initState).tasks =
      ((persistRecs st).map rehydRec).reverse ++ initState.tasks := by
    rw [hfile]
    show (load_core (persistRecs st) initState).tasks = _
    exact load_core_tasks _ initState (hkeys ▸ h) (fun r _ => rfl)
  have hmain : persistRecs (load_persisted ((persist st).file) initState)
      = (persistRecs st).reverse := by
    show (load_persisted ((persist st).file) initState).tasks.map
        (fun ke => (ke.1, ke.2.spec)) = _
    rw [htasks]
    simp [initState, List.map_reverse, List.map_map, rehydRec, mkEntry, persistRecs]
  refine ⟨hmain, fun p => ?_, fun ke hke => ?_⟩
  · rw [hmain, List.mem_reverse]
  · rw [htasks] at hke
    simp only [initState, List.append_nil, List.mem_reverse, List.mem_map] at hke
    obtain ⟨r, _, hr⟩ := hke
    rw [← hr]
    rfl

/-- C1 witness: the round-trip at a concrete two-task store in which task 1
already has a recorded result. -/
theorem C1_persist_reload_witness :
    persistRecs (load_persisted ((persist st1).file) initState)
        = (persistRecs st1).reverse ∧
    (∀ p : Nat × TaskSpec,
        p ∈ persistRecs (load_persisted ((persist st1).file) initState) ↔
          p ∈ persistRecs st1) ∧
    (∀ ke ∈ (load_persisted ((persist st1).file) initState).tasks,
        ke.2.last_result = none) :=
  C1_persist_reload st1 (by decide)

lemma le_foldl_max (recs : List (Nat × TaskSpec)) :
    ∀ a : Nat, a ≤ recs.foldl (fun m r => max m r.1) a := by
  induction recs with
  | nil => intro a; simp
  | cons r rest ih =>
      intro a
      calc a ≤ max a r.1 := Nat.le_max_left _ _
        _ ≤ rest.foldl (fun m r => max m r.1) (max a r.1) := ih _

lemma mem_le_foldl_max (recs : List (Nat × TaskSpec)) :
    ∀ (a : Nat) (p : Nat × TaskSpec), p ∈ recs →
      p.1 ≤ recs.foldl (fun m r => max m r.1) a := by
  induction recs with
  | nil => intro a p hp; cases hp
  | cons r rest ih =>
      intro a p hp
      rcases List.mem_cons.1 hp with h | h
      · subst h
        calc p.1 ≤ max a p.1 := Nat.le_max_right _ _
          _ ≤ rest.foldl (fun m r => max m r.1) (max a p.1) := le_foldl_max _ _
      · exact ih _ p h

lemma foldl_max_lt (recs : List (Nat × TaskSpec)) :
    ∀ (a c : Nat), a < c → (∀ p ∈ recs, p.1 < c) →
      recs.foldl (fun m r => max m r.1) a < c := by
  induction recs with
  | nil => intro a c ha _; simpa using ha
  | cons r rest ih =>
      intro a c ha hall
      have h1 : max a r.1 < c :=
        Nat.max_lt.2 ⟨ha, hall r (List.mem_cons_self r rest)⟩
      exact ih _ _ h1 (fun p hp => hall p (List.mem_cons_of_mem r hp))

lemma maxIdOf_ge (recs : List (Nat × TaskSpec)) (p : Nat × TaskSpec)
    (hp : p ∈ recs) : p.1 ≤ maxIdOf recs :=
  mem_le_foldl_max recs 0 p hp

lemma add_ret_ok (spec : TaskSpec) (st : State) :
    (add_task true spec st).2 = Except.ok st.next_id := rfl

lemma add_next_id (spec : TaskSpec) (st : State) :
    (add_task true spec st).1.next_id = (st.next_id + 1) % U64 := rfl

lemma remove_next_id (persistOk : Bool) (rid : Nat) (st : State) :
    (remove_task persistOk rid st).1.next_id = st.next_id := by
  unfold remove_task
  cases h : lookupA st.tasks rid with
  | none => rfl
  | some e => cases persistOk <;> rfl

/-- C2 counterexample: the claim fails on the code at the persisted record
set whose only id is the largest u64.  load_persisted seeds the counter
with saturating_add, so it stays at 2^64 - 1 instead of one greater than
the maximum recovered id, and the next successful AddTask returns exactly
that persisted id, which does not exceed it. -/
theorem C2_counterexample :
    (load_persisted recsMax initState).next_id = 18446744073709551615 ∧
    (load_persisted recsMax initState).next_id ≠ 18446744073709551615 + 1 ∧
    (add_task true specOnce (load_persisted recsMax initState)).2 =
      Except.ok 18446744073709551615 ∧
    (18446744073709551615, specOnce) ∈ recsMax ∧
    ¬ (18446744073709551615 > (18446744073709551615 : Nat)) :=
  ⟨by decide, by decide, rfl, by decide, by decide⟩

/-- C2 as amended: a successful AddTask returns the current counter value,
which under the store invariant strictly exceeds every stored id; removal
never lowers the counter, so a remove-then-add still allocates the same
fresh id; as long as the counter is below 2^64 - 1 an add bumps it by one
and preserves the invariant; and at restart the counter is seeded with
min (max recovered id + 1) (2^64 - 1), which strictly exceeds every
persisted id whenever all persisted ids are below 2^64 - 1. -/
theorem C2_ids_monotonic (st : State) (spec : TaskSpec) (rid : Nat)
    (recs : List (Nat × TaskSpec))
    (hInv : ∀ ke ∈ st.tasks, ke.1 < st.next_id)
    (hNoSat : st.next_id < U64 - 1)
    (hrecs : ∀ p ∈ recs, p.1 < U64 - 1) :
    (add_task true spec st).2 = Except.ok st.next_id ∧
    (remove_task true rid st).1.next_id = st.next_id ∧
    (add_task true spec ((remove_task true rid st).1)).2 =
      Except.ok st.next_id ∧
    (add_task true spec st).1.next_id = st.next_id + 1 ∧
    (∀ ke ∈ (add_task true spec st).1.tasks,
        ke.1 < (add_task true spec st).1.next_id) ∧
    (load_persisted recs initState).next_id = maxIdOf recs + 1 ∧
    (∀ p ∈ recs, p.1 < (load_persisted recs initState).next_id) ∧
    (add_task true spec (load_persisted recs initState)).2 =
      Except.ok ((load_persisted recs initState).next_id) := by
  have hU : (U64 - 1) + 1 = U64 := by norm_num [U64]
  have hsucc : st.next_id + 1 < U64 := by omega
  have hmod : (st.next_id + 1) % U64 = st.next_id + 1 := Nat.mod_eq_of_lt hsucc
  have hmax : maxIdOf recs < U64 - 1 := by
    have h0 : 0 < U64 - 1 := by omega
    exact foldl_max_lt recs 0 _ h0 hrecs
  have hseed : (load_persisted recs initState).next_id = maxIdOf recs + 1 := by
    show min (maxIdOf recs + 1) (U64 - 1) = maxIdOf recs + 1
    exact Nat.min_eq_left (by omega)
  refine ⟨add_ret_ok spec st, remove_next_id true rid st, ?_, ?_, ?_, hseed, ?_, add_ret_ok _ _⟩
  · rw [add_ret_ok, remove_next_id]
  · rw [add_next_id, hmod]
  · intro ke hke
    rw [add_next_id, hmod]
    have htasks : (add_task true spec st).1.tasks =
        (st.next_id, mkEntry spec) :: eraseKey st.tasks st.next_id := rfl
    rw [htasks] at hke
    rcases List.mem_cons.1 hke with h | h
    · rw [h]; omega
    · have := hInv ke (mem_eraseKey _ _ _ h)
      omega
  · intro p hp
    rw [hseed]
    have := maxIdOf_ge recs p hp
    omega

/-- C2 witness: the amended statement at the concrete three-task store of
the chain scenario, with a removal of task 1 and a restart set whose only
persisted id is 5. -/
theorem C2_ids_monotonic_witness :
    (add_task true specOnce stABC).2 = Except.ok stABC.next_id ∧
    (remove_task true 1 stABC).1.next_id = stABC.next_id ∧
    (add_task true specOnce ((remove_task true 1 stABC).1)).2 =
      Except.ok stABC.next_id ∧
    (add_task true specOnce stABC).1.next_id = stABC.next_id + 1 ∧
    (∀ ke ∈ (add_task true specOnce stABC).1.tasks,
        ke.1 < (add_task true specOnce stABC).1.next_id) ∧
    (load_persisted [(5, specOnce)] initState).next_id =
      maxIdOf [(5, specOnce)] + 1 ∧
    (∀ p ∈ [((5 : Nat), specOnce)],
        p.1 < (load_persisted [(5, specOnce)] initState).next_id) ∧
    (add_task true specOnce (load_persisted [(5, specOnce)] initState)).2 =
      Except.ok ((load_persisted [(5, specOnce)] initState).next_id) :=
  C2_ids_monotonic stABC specOnce 1 [(5, specOnce)]
    (by decide) (by decide) (by decide)

lemma lookupA_insert_self {α : Type} (l : List (Nat × α)) (k : Nat) (v : α) :
    lookupA (insertA l k v) k = some v := by
  simp [insertA, lookupA]

lemma lookupA_erase_self {α : Type} (l : List (Nat × α)) (k : Nat) :
    lookupA (eraseKey l k) k = none := by
  induction l with
  | nil => rfl
  | cons p rest ih =>
      obtain ⟨k2, v⟩ := p
      by_cases hk : k2 = k
      · simpa [eraseKey, List.filter_cons, hk] using ih
      · have hstep : eraseKey ((k2, v) :: rest) k = (k2, v) :: eraseKey rest k := by
          simp [eraseKey, List.filter_cons, hk]
        rw [hstep, lookupA_cons_ne _ _ _ _ hk, ih]

/-- C3: the Chain Runner walk.  First conjunct: the sequence of executed
dependents, each with its configured delay, is the same under any two
execution oracles: a dependent whose spawn fails still has its own direct
dependents enqueued, and the walk continues identically.  Second conjunct:
in the concrete scenario where task 1 is Once, task 2 is After 1 with zero
delay and task 3 is After 2 with zero delay, firing task 1 executes task 2
then task 3, each exactly once, in that first-in-first-out order.  The
walk is modelled exactly as the iterative explicit-queue loop of
run_once_and_record, dequeuing from the front and enqueuing direct
dependents at the back. -/
theorem C3_chain_fifo :
    (∀ (st : State) (e1 e2 : Nat → Option CmdOutput) (fuel : Nat)
        (q : List (Nat × TaskSpec × Nat)),
      (chain_walk st e1 fuel q).map (fun t => (t.1, t.2.1)) =
        (chain_walk st e2 fuel q).map (fun t => (t.1, t.2.1))) ∧
    run_once_and_record execOk 5 1 stABC =
      Except.ok [(2, 0, true), (3, 0, true)] := by
  constructor
  · intro st e1 e2 fuel
    induction fuel with
    | zero => intro q; rfl
    | succ n ih =>
        intro q
        cases q with
        | nil => rfl
        | cons hd rest =>
            obtain ⟨i, s, d⟩ := hd
            simp [chain_walk, ih]
  · rfl

/-- C4 counterexample: the claim fails on the code.  With a persisted file
that exists but is malformed, main only logs the load error and falls
through to bind the listener, so the Control Endpoint does begin accepting
connections, with an empty task store, instead of the process stopping. -/
theorem C4_counterexample :
    (startup (some (Except.error ("not json")))).2 = true ∧
    (startup (some (Except.error ("not json")))).1 = initState :=
  ⟨rfl, rfl⟩

/-- C4 as amended: a malformed persisted file at startup is not fatal: the
error is only logged, the Control Endpoint still begins accepting
connections, and the server runs with the fresh initial state (empty task
store, empty dependency index, id counter 1); the parse failure happens
before any record is inserted, so the store is empty rather than
partial. -/
theorem C4_startup_continues :
    ∀ msg : String, startup (some (Except.error msg)) = (initState, true) :=
  fun _ => rfl

/-- C5 counterexample: the claim fails on the code.  At the initial state,
an AddTask whose persistence write fails leaves the new task in the store
(id 1), but the client receives no response at all: the handler aborts
before sending, so the connection is dropped instead of returning the
success response Added with id 1. -/
theorem C5_counterexample :
    (handle_request false (ClientRequest.addTask specOnce) initState).2 = none ∧
    (handle_request false (ClientRequest.addTask specOnce) initState).2 ≠
      some (ServerResponse.added 1) ∧
    lookupA (handle_request false
      (ClientRequest.addTask specOnce) initState).1.tasks 1 =
      some (mkEntry specOnce) :=
  ⟨rfl, by decide, rfl⟩

/-- C5 as amended: when the persistence write fails after the in-memory
Add or Remove has succeeded, the in-memory change is indeed not rolled
back (the added task is present under the allocated id; the removed task
is gone), but the client does not receive the success response: the error
propagates out of the connection handler before a reply is sent, so the
connection is dropped with no response. -/
theorem C5_persist_fail_no_rollback (st : State) (spec : TaskSpec)
    (rid : Nat) (e : TaskEntry) (he : lookupA st.tasks rid = some e) :
    (handle_request false (ClientRequest.addTask spec) st).2 = none ∧
    lookupA (handle_request false
        (ClientRequest.addTask spec) st).1.tasks st.next_id =
      some (mkEntry spec) ∧
    (handle_request false (ClientRequest.removeTask rid) st).2 = none ∧
    lookupA (handle_request false
        (ClientRequest.removeTask rid) st).1.tasks rid = none := by
  refine ⟨rfl, lookupA_insert_self _ _ _, ?_, ?_⟩
  · simp [handle_request, remove_task, he]
  · simp only [handle_request, remove_task, he]
    exact lookupA_erase_self _ _

/-- C5 witness: the amended statement at the concrete two-task store st1,
removing the present task 1. -/
theorem C5_persist_fail_no_rollback_witness :
    (handle_request false (ClientRequest.addTask specOnce) st1).2 = none ∧
    lookupA (handle_request false
        (ClientRequest.addTask specOnce) st1).1.tasks st1.next_id =
      some (mkEntry specOnce) ∧
    (handle_request false (ClientRequest.removeTask 1) st1).2 = none ∧
    lookupA (handle_request false
        (ClientRequest.removeTask 1) st1).1.tasks 1 = none :=
  C5_persist_fail_no_rollback st1 specOnce 1 ⟨specOnce, true, some res0⟩
    (by decide)

/-- C6: when the external command cannot be started (the spawn oracle
yields none), execute_once reports an error to its caller and changes
neither the store (so last_result keeps its prior value) nor the output
file, and run_once_and_record aborts before building the dependent queue,
so the Chain Runner propagation does not occur. -/
theorem C6_launch_failure (now : Int) (ts : String) (id : Nat)
    (spec : TaskSpec) (st : State) (file : Option (List Char))
    (exec : Nat → Option CmdOutput) (fuel : Nat) (hexec : exec id = none) :
    execute_once now ts (exec id) id spec st file =
      (st, file, Except.error ()) ∧
    run_once_and_record exec fuel id st = Except.error () := by
  constructor
  · rw [hexec]
    rfl
  · simp [run_once_and_record, hexec]

/-- C6 witness: a concrete run at the initial state with an oracle on which
every spawn fails. -/
theorem C6_launch_failure_witness :
    execute_once 0 tsT ((fun _ : Nat => (none : Option CmdOutput)) 1) 1
        specOnce initState none = (initState, none, Except.error ()) ∧
    run_once_and_record (fun _ : Nat => (none : Option CmdOutput)) 3 1
        initState = Except.error () :=
  C6_launch_failure 0 tsT 1 specOnce initState none
    (fun _ => none) 3 rfl

/-- C7 counterexample: the claim fails on the code.  Task 1 is added, an
execution of it is in flight, and the removal completes before the
execution finishes.  The finishing step then finds no entry for id 1, so
nothing is recorded anywhere: the resulting state is exactly the
post-removal state and holds no last_result for the task, refuting that
the in-flight execution still records its result into the task entry; the
execution itself does complete and writes the output file. -/
theorem C7_counterexample :
    (remove_task true 1 (add_task true specOnce initState).1).2 =
      Except.ok true ∧
    lookupA stRem.tasks 1 = none ∧
    (execute_finish 0 tsT outHi 1 specOnce stRem (some [])).1 = stRem ∧
    (execute_finish 0 tsT outHi 1 specOnce stRem (some [])).2 ≠ [] :=
  ⟨rfl, rfl, rfl, by decide⟩

/-- C7 as amended: if a task is removed while one of its executions is in
flight, the execution still completes and still writes its output file
(the written content is independent of the store), but the result is
recorded into last_result only when the entry is still present at the
recording step: a store from which the task is already gone is left
completely unchanged, while a store that still holds the entry gets its
last_result replaced.  The removal itself deletes the entry and removes
the removed id from every dependent list of the Dependency Index. -/
theorem C7_remove_inflight (now : Int) (ts : String) (o : CmdOutput)
    (id : Nat) (spec : TaskSpec) (stA stB : State)
    (file : Option (List Char)) (e : TaskEntry)
    (hA : lookupA stA.tasks id = none)
    (hB : lookupA stB.tasks id = some e) :
    (execute_finish now ts o id spec stA file).2 =
      (execute_finish now ts o id spec stB file).2 ∧
    (execute_finish now ts o id spec stA file).1 = stA ∧
    lookupA (execute_finish now ts o id spec stB file).1.tasks id =
      some { e with last_result := some ⟨now, status_of o, o.stdout.length, o.stderr.length, spec.output_path⟩ } ∧
    (∀ kv ∈ (remove_task true id stB).1.watchers, id ∉ kv.2) ∧
    lookupA (remove_task true id stB).1.tasks id = none := by
  refine ⟨rfl, ?_, ?_, ?_, ?_⟩
  · simp [execute_finish, record_result, hA]
  · simp only [execute_finish, record_result, hB]
    exact lookupA_insert_self _ _ _
  · intro kv hkv hmem
    simp only [remove_task, hB, if_true, persist, List.mem_map] at hkv
    obtain ⟨kv0, _, hkv0⟩ := hkv
    rw [← hkv0] at hmem
    have := List.mem_filter.1 hmem
    simp at this
  · simp only [remove_task, hB, if_true, persist]
    exact lookupA_erase_self _ _

/-- C7 witness: the amended statement with the post-removal state stRem on
one side and the two-task store st1 (task 1 present) on the other. -/
theorem C7_remove_inflight_witness :
    (execute_finish 0 tsT outHi 1 specOnce stRem (some [])).2 =
      (execute_finish 0 tsT outHi 1 specOnce st1 (some [])).2 ∧
    (execute_finish 0 tsT outHi 1 specOnce stRem (some [])).1 = stRem ∧
    lookupA (execute_finish 0 tsT outHi 1 specOnce st1 (some [])).1.tasks 1 =
      some { (⟨specOnce, true, some res0⟩ : TaskEntry) with last_result := some ⟨0, status_of outHi, outHi.stdout.length, outHi.stderr.length, specOnce.output_path⟩ } ∧
    (∀ kv ∈ (remove_task true 1 st1).1.watchers, 1 ∉ kv.2) ∧
    lookupA (remove_task true 1 st1).1.tasks 1 = none :=
  C7_remove_inflight 0 tsT outHi 1 specOnce stRem st1 (some [])
    ⟨specOnce, true, some res0⟩ (by decide) (by decide)

/-- C8 counterexample: the claim fails on the code when the current local
time has a non-zero sub-second component.  One nanosecond after local
midnight, for Daily at 01:00 the instant today-at-01:00 is still in the
future, yet next_daily_at returns 01:00:00 plus one nanosecond, because
with_second(0) zeroes the seconds but keeps the nanoseconds of now, so the
result is not the claimed instant. -/
theorem C8_counterexample :
    next_daily_at 1 0 now0 = some (LocalDT.mk 0 1 0 0 1) ∧
    LocalDT.mk 0 1 0 0 1 ≠ LocalDT.mk 0 1 0 0 0 ∧
    dtLt now0 (LocalDT.mk 0 1 0 0 0) = true ∧
    next_daily_claim 1 0 now0 = LocalDT.mk 0 1 0 0 0 := by
  decide

/-- C8 as amended: for a valid Daily hour and minute and a current local
time with a sub-second nanosecond below one second, the computed next fire
time is exactly the instant the claim describes, today at hour:minute when
that instant is still in the future and otherwise tomorrow at hour:minute,
except that its nanosecond field is the nanosecond field of now instead of
zero; in particular the today-versus-tomorrow choice always matches the
claim, and whenever now has a zero nanosecond field the claim holds
exactly. -/
theorem C8_next_daily (h m : Nat) (now : LocalDT) (hh : h ≤ 23)
    (hm : m ≤ 59) (hns : now.nano < 1000000000) :
    next_daily_at h m now =
      some { next_daily_claim h m now with nano := now.nano } := by
  have hkey : dtLt now { now with hour := h, minute := m, second := 0 } =
      dtLt now ⟨now.day, h, m, 0, 0⟩ := by
    simp only [dtLt, lt_self_iff_false, if_false]
    exact decide_eq_decide.mpr (by simp only [nanoOfDay]; omega)
  have h59 : (0 : Nat) ≤ 59 := by omega
  simp only [next_daily_at, with_hour, with_minute, with_second, hh, hm, h59,
    if_true, Option.bind, next_daily_claim]
  rw [hkey]
  cases hd : dtLt now (⟨now.day, h, m, 0, 0⟩ : LocalDT) <;>
    simp only [hd, if_true, Bool.false_eq_true, if_false, addDays]

/-- C8 witness: the amended statement one nanosecond after local midnight
with a Daily schedule at 01:00. -/
theorem C8_next_daily_witness :
    next_daily_at 1 0 now0 =
      some { next_daily_claim 1 0 now0 with nano := now0.nano } :=
  C8_next_daily 1 0 now0 (by decide) (by decide) (by decide)

lemma writeAll_append (ws : List (List Char)) :
    ∀ (c : List Char) (p : Nat),
      (writeAll ⟨c, p, true⟩ ws).content = c ++ ws.flatten := by
  induction ws with
  | nil => intro c p; simp [writeAll]
  | cons s ws ih =>
      intro c p
      have hstep : writeAll ⟨c, p, true⟩ (s :: ws) =
          writeAll ⟨c ++ s, c.length + s.length, true⟩ ws := by
        simp [writeAll, fwrite]
      rw [hstep, ih]
      simp

lemma writeAll_over (ws : List (List Char)) :
    ∀ (w old : List Char),
      writeAll ⟨w ++ old.drop w.length, w.length, false⟩ ws =
        ⟨(w ++ ws.flatten) ++ old.drop (w.length + ws.flatten.length),
         w.length + ws.flatten.length, false⟩ := by
  induction ws with
  | nil => intro w old; simp [writeAll]
  | cons s ws ih =>
      intro w old
      have hdrop : (w ++ old.drop w.length).drop (w.length + s.length) =
          old.drop (w.length + s.length) := by
        calc (w ++ old.drop w.length).drop (w.length + s.length)
            = ((w ++ old.drop w.length).drop w.length).drop s.length :=
              (List.drop_drop _ _ _).symm
          _ = (old.drop w.length).drop s.length := by rw [List.drop_left]
          _ = old.drop (w.length + s.length) := List.drop_drop _ _ _
      have hstep : writeAll ⟨w ++ old.drop w.length, w.length, false⟩ (s :: ws) =
          writeAll ⟨(w ++ s) ++ old.drop ((w ++ s).length),
            (w ++ s).length, false⟩ ws := by
        simp only [writeAll, List.foldl_cons, fwrite, if_false,
          Bool.false_eq_true, List.take_left, hdrop, List.length_append,
          List.append_assoc]
      rw [hstep, ih]
      simp [List.append_assoc, Nat.add_assoc]

/-- C9 counterexample: the claim fails on the code at the echo hi scenario
with the append flag unset.  The source opens the output file with
write(true) but never truncate(true), so on a pre-existing 50-byte file the
bytes beyond what is written survive, and after the stdout bytes an extra
newline is written when not appending; both contradict the claimed file
content of header line then hi plus its captured newline (and the claimed
truncate-per-flag semantics). -/
theorem C9_counterexample :
    (execute_finish 0 tsT outHi 1 specOnce initState (some priorX)).2 ≠
      executor_file_claim tsT 1 0 outHi (some priorX) false ∧
    (execute_finish 0 tsT outHi 1 specOnce initState none).2 ≠
      header_line tsT 1 0 ++ ("hi" ++ "\n").data ∧
    (execute_finish 0 tsT outHi 1 specOnce initState (some priorX)).2 =
      header_line tsT 1 0 ++ ("hi" ++ "\n" ++ "\n").data ++
        List.replicate 20 'X' := by
  decide

/-- C9 as amended: the Executor writes, in order, the header line with
timestamp, task id and exit code, then the captured stdout bytes followed
by one extra newline when the append flag is unset (and nothing when
stdout is empty), then, when stderr is non-empty, a blank line and the
separator line, the stderr bytes and a newline.  With append set the whole
sequence is appended to the prior content; with append unset the file is
not truncated: the sequence overwrites the file from the start and any
longer prior content keeps its tail.  On a fresh or absent file the
content is exactly the written sequence; in the echo hi scenario that is
the header line, then hi with its captured newline, then one extra
newline. -/
theorem C9_executor_file (now : Int) (ts : String) (id2 : Nat)
    (o : CmdOutput) (old : List Char) (st : State) (cmd : String)
    (args : List String) (path : String) (sched : Schedule) :
    (execute_finish now ts o id2 ⟨cmd, args, path, true, sched⟩ st (some old)).2 =
      old ++ (write_list ts id2 (status_of o) true o).flatten ∧
    (execute_finish now ts o id2 ⟨cmd, args, path, false, sched⟩ st (some old)).2 =
      (write_list ts id2 (status_of o) false o).flatten ++
        old.drop (write_list ts id2 (status_of o) false o).flatten.length ∧
    (execute_finish now ts o id2 ⟨cmd, args, path, false, sched⟩ st none).2 =
      (write_list ts id2 (status_of o) false o).flatten ∧
    (write_list ts id2 (status_of o) false o).flatten =
      header_line ts id2 (status_of o)
        ++ (if o.stdout.isEmpty then [] else o.stdout ++ nlC)
        ++ (if o.stderr.isEmpty then [] else sepC ++ o.stderr ++ nlC) ∧
    (write_list ts id2 (status_of o) true o).flatten =
      header_line ts id2 (status_of o)
        ++ (if o.stdout.isEmpty then [] else o.stdout)
        ++ (if o.stderr.isEmpty then [] else sepC ++ o.stderr ++ nlC) ∧
    (execute_finish 0 tsT outHi 1 specOnce initState none).2 =
      header_line tsT 1 0 ++ ("hi" ++ "\n" ++ "\n").data := by
  refine ⟨?_, ?_, ?_, ?_, ?_, by decide⟩
  · show (writeAll ⟨old, 0, true⟩ _).content = _
    rw [writeAll_append]
  · show (writeAll ⟨old, 0, false⟩ _).content = _
    have h0 : (⟨old, 0, false⟩ : OpenFile) =
        ⟨[] ++ old.drop (List.length ([] : List Char)), List.length ([] : List Char), false⟩ := by
      simp
    rw [h0, writeAll_over]
    simp
  · show (writeAll ⟨[], 0, false⟩ _).content = _
    have h0 : (⟨[], 0, false⟩ : OpenFile) =
        ⟨[] ++ List.drop (List.length ([] : List Char)) [], List.length ([] : List Char), false⟩ := by
      simp
    rw [h0, writeAll_over]
    simp
  · simp only [write_list]
    split_ifs <;> simp_all
  · simp only [write_list]
    split_ifs <;> simp_all

/-- C10: removing an id that is not present returns the Removed response
with ok false and leaves the whole state unchanged: the task table, the
dependency index and the persisted file are untouched, and no persistence
write is attempted (the conclusion holds whether a write would succeed or
fail). -/
theorem C10_remove_missing (persistOk : Bool) (st : State) (id2 : Nat)
    (h : lookupA st.tasks id2 = none) :
    handle_request persistOk (ClientRequest.removeTask id2) st =
      (st, some (ServerResponse.removed false)) := by
  simp [handle_request, remove_task, h]

/-- C10 witness: removing the absent id 7 from the initial empty store. -/
theorem C10_remove_missing_witness :
    handle_request true (ClientRequest.removeTask 7) initState =
      (initState, some (ServerResponse.removed false)) :=
  C10_remove_missing true initState 7 rfl
